import Mathlib

/-!
Shallow embedding of the `tylift` procedural macro (src/src/lib.rs) and
verification of its specification.

The macro consumes a Rust `enum` declaration (parsed by `syn` as an
`ItemEnum`) together with the attribute's argument tokens, and produces a
stream of Rust items: a re-export, a module holding the kind trait, one
struct + trait impl per surviving variant, a hidden placeholder enum, and a
nested sealing module.  The embedding mirrors the source line by line:
panics become `Except.error`, `proc_macro_diagnostic` emissions become
entries of a diagnostics list, and the `span_errors` cargo feature becomes
a boolean configuration flag.
-/

namespace Tylift

/-- An attribute token such as a doc comment, kept opaque as a string. -/
abbrev Attr := String

/-- A field of an enum variant: its attributes and its type (a type
reference naming a kind), as `syn::Field` provides them. -/
structure Field where
  attrs : List Attr
  ty : String
deriving Repr, DecidableEq

/-- `syn::Fields`: named fields, unnamed (tuple) fields, or a unit variant. -/
inductive Fields where
  | named (fields : List (String × Field)) : Fields
  | unnamed (fields : List Field) : Fields
  | unit : Fields
deriving Repr, DecidableEq

/-- `syn::Variant`: attributes, identifier, field list, and an optional
explicit discriminant. -/
structure Variant where
  attrs : List Attr
  ident : String
  fields : Fields
  discriminant : Option Int
deriving Repr, DecidableEq

/-- `syn::ItemEnum` restricted to the components the macro reads:
attributes, visibility, identifier, generic parameters, where-clause and
the ordered variant list. -/
structure ItemEnum where
  attrs : List Attr
  vis : String
  ident : String
  genericParams : List String
  whereClause : Option String
  variants : List Variant
deriving Repr, DecidableEq

/-- Output items, mirroring the token stream the macro assembles with
`quote!`.  `params` lists are `(parameter, bound)` pairs; a module's
`vis` is `""` when the `mod` keyword is not preceded by `pub`. -/
inductive Decl where
  | useGlob : Decl
  | useItems (vis : String) (moduleName : String) (names : List String) : Decl
  | traitDecl (attrs : List Attr) (vis : String) (name : String)
      (superTrait : Option (String × String)) (whereClause : Option String) : Decl
  | structDecl (attrs : List Attr) (vis : String) (name : String)
      (params : List (String × String)) (payload : List String) : Decl
  | enumDecl (attrs : List Attr) (vis : String) (name : String)
      (variants : List String) : Decl
  | implTrait (params : List (String × String)) (traitName : String)
      (selfTy : String) (args : List String) : Decl
  | modDecl (vis : String) (name : String) (content : List Decl) : Decl
deriving Repr

/-- The `identifier!` macro of lib.rs: prefixes the formatted name with
two underscores. -/
def mkIdent (s : String) : String := "__" ++ s

/-- Result of a successful expansion: the emitted items together with the
diagnostics reported through `proc_macro_diagnostic` (empty unless the
`span_errors` feature is active). -/
structure Output where
  decls : List Decl
  diagnostics : List String
deriving Repr

/-- One entry of the `variants` vector built by the validation loop of
`tylift`: `(variant.attrs, variant.ident, field_names, field_types)`. -/
structure LiftedVariant where
  attrs : List Attr
  ident : String
  fieldNames : List String
  fieldTypes : List String
deriving Repr, DecidableEq

/-- The body of the `for variant in &item.variants` loop (lib.rs lines
125-166) for a single variant.  Returns the diagnostics it emits and the
entry it pushes, or a panic message.  With `spanErrors` on, a name clash
emits a diagnostic and `continue`s.  In the `Fields::Named` arm the
skip-branch is gated on the misspelt feature name `span_erros`, so with
`span_errors` enabled neither branch of that arm is compiled and the
variant falls through with empty field lists. -/
def processVariant (spanErrors : Bool) (enumIdent : String) (v : Variant) :
    Except String (List String × Option LiftedVariant) :=
  if v.ident = enumIdent then
    if spanErrors then
      Except.ok (["name of variant matches name of enum"], none)
    else
      Except.error "name of variant matches name of enum"
  else
    match v.fields with
    | Fields.named _ =>
        if spanErrors then
          Except.ok ([], some ⟨v.attrs, v.ident, [], []⟩)
        else
          Except.error "variant must not have named fields"
    | Fields.unnamed fields =>
        Except.ok ([], some ⟨v.attrs, v.ident,
          (List.range fields.length).map (fun i => mkIdent ("T" ++ toString i)),
          fields.map (fun f => f.ty)⟩)
    | Fields.unit =>
        Except.ok ([], some ⟨v.attrs, v.ident, [], []⟩)

/-- The whole validation loop: processes the variants in order,
short-circuiting on the first panic, accumulating diagnostics and pushed
entries in input order. -/
def validateVariants (spanErrors : Bool) (enumIdent : String) :
    List Variant → Except String (List String × List LiftedVariant)
  | [] => Except.ok ([], [])
  | v :: vs =>
    match processVariant spanErrors enumIdent v with
    | Except.error e => Except.error e
    | Except.ok (d, lv) =>
      match validateVariants spanErrors enumIdent vs with
      | Except.error e => Except.error e
      | Except.ok (ds, lvs) => Except.ok (d ++ ds, lv.toList ++ lvs)

/-- Items contributed to `kind_module_stream` by one pushed variant
(lib.rs lines 188-196): the struct with one synthesized generic parameter
per field, holding a `PhantomData` tuple of the parameters, and the
implementation of the kind trait. -/
def liftedKindDecls (kind : String) (lv : LiftedVariant) : List Decl :=
  [ Decl.structDecl lv.attrs "pub" lv.ident (lv.fieldNames.zip lv.fieldTypes) lv.fieldNames,
    Decl.implTrait (lv.fieldNames.zip lv.fieldTypes) kind lv.ident lv.fieldNames ]

/-- Item contributed to `sealed_module_stream` by one pushed variant
(lib.rs lines 197-199). -/
def sealedImplDecl (sealedTrait : String) (lv : LiftedVariant) : Decl :=
  Decl.implTrait (lv.fieldNames.zip lv.fieldTypes) sealedTrait lv.ident lv.fieldNames

/-- Assembly of the output stream (lib.rs lines 168-211) from the item and
the pushed variant entries. -/
def emit (item : ItemEnum) (variants : List LiftedVariant)
    (diags : List String) : Output :=
  let kind := item.ident
  let kindModule := mkIdent ("tylift_kind_" ++ kind)
  let pseudo := mkIdent "Pseudo"
  let sealedModule := mkIdent "sealed"
  let sealedTrait := mkIdent "Sealed"
  let items := kind :: variants.map (fun lv => lv.ident)
  let kindModuleStream : List Decl :=
    [ Decl.useGlob,
      Decl.traitDecl item.attrs "pub" kind (some (sealedModule, sealedTrait))
        item.whereClause ]
    ++ (variants.map (liftedKindDecls kind)).flatten
    ++ [ Decl.enumDecl ["doc(hidden)"] "pub" pseudo [],
         Decl.implTrait [] kind pseudo [] ]
  let sealedModuleStream : List Decl :=
    [ Decl.useGlob,
      Decl.traitDecl [] "pub" sealedTrait none none ]
    ++ variants.map (sealedImplDecl sealedTrait)
    ++ [ Decl.implTrait [] sealedTrait pseudo [] ]
  { decls :=
      [ Decl.useItems item.vis kindModule items,
        Decl.modDecl "" kindModule
          (kindModuleStream ++ [Decl.modDecl "" sealedModule sealedModuleStream]) ],
    diagnostics := diags }

/-- The `tylift` attribute macro itself (lib.rs lines 99-212):
`assert!(attr.is_empty())`, the generics check, the validation loop, then
emission.  `spanErrors` models the `span_errors` cargo feature. -/
def tylift (spanErrors : Bool) (attr : List String) (item : ItemEnum) :
    Except String Output :=
  if attr.isEmpty then
    match
      (if item.genericParams.isEmpty then Except.ok []
       else if spanErrors then
         Except.ok ["type parameters cannot be lifted to the kind-level"]
       else
         Except.error "type parameters cannot be lifted to the kind-level" :
       Except String (List String))
    with
    | Except.error e => Except.error e
    | Except.ok genericsDiags =>
      match validateVariants spanErrors item.ident item.variants with
      | Except.error e => Except.error e
      | Except.ok (variantDiags, variants) =>
        Except.ok (emit item variants (genericsDiags ++ variantDiags))
  else
    Except.error "assertion failed: attr.is_empty()"

/-! ### Validity of variants and the entry the loop pushes for them -/

/-- Whether a `syn::Fields` value is the named-fields form. -/
def Fields.isNamed : Fields → Bool
  | Fields.named _ => true
  | _ => false

/-- A variant passes both per-variant validation rules: its name differs
from the enum's and it has no named fields. -/
def Variant.isValid (enumIdent : String) (v : Variant) : Bool :=
  v.ident != enumIdent && !v.fields.isNamed

/-- The kind-bounds of the fields of a variant, as the loop collects them
into `field_types`. -/
def Variant.liftedFieldTypes (v : Variant) : List String :=
  match v.fields with
  | Fields.unnamed fields => fields.map (fun f => f.ty)
  | _ => []

/-- The synthesized positional parameter names `__T0`, `__T1`, … collected
into `field_names`. -/
def Variant.liftedFieldNames (v : Variant) : List String :=
  (List.range v.liftedFieldTypes.length).map (fun i => mkIdent ("T" ++ toString i))

/-- The entry the loop pushes for a variant it does not skip. -/
def Variant.lift (v : Variant) : LiftedVariant :=
  ⟨v.attrs, v.ident, v.liftedFieldNames, v.liftedFieldTypes⟩

/-- Diagnostic the loop emits for one variant when `span_errors` is on. -/
def variantDiag (e : String) (v : Variant) : List String :=
  if v.ident = e then ["name of variant matches name of enum"] else []

/-- Entry the loop pushes for one variant when `span_errors` is on (the
named-fields rule is dead code in this configuration, so a named-fields
variant is pushed with empty field lists, which is what `Variant.lift`
also yields for it). -/
def variantPush (e : String) (v : Variant) : Option LiftedVariant :=
  if v.ident = e then none else some v.lift

/-! ### Extraction helpers over the emitted items

These scan one declaration list without descending into submodules, so
"the structs of the kind module" and "the impls inside the sealing
module" stay distinct, exactly as Rust name resolution keeps them. -/

/-- Names of the structs declared directly in a declaration list. -/
def structNames : List Decl → List String
  | [] => []
  | Decl.structDecl _ _ n _ _ :: ds => n :: structNames ds
  | _ :: ds => structNames ds

/-- Names of the traits declared directly in a declaration list. -/
def traitNames : List Decl → List String
  | [] => []
  | Decl.traitDecl _ _ n _ _ :: ds => n :: traitNames ds
  | _ :: ds => traitNames ds

/-- Names of the enums declared directly in a declaration list. -/
def enumNames : List Decl → List String
  | [] => []
  | Decl.enumDecl _ _ n _ :: ds => n :: enumNames ds
  | _ :: ds => enumNames ds

/-- Self-types of the `impl t for X` items for trait `t` directly in a
declaration list, in order. -/
def implsIn (t : String) : List Decl → List String
  | [] => []
  | Decl.implTrait _ tr s _ :: ds =>
      if tr = t then s :: implsIn t ds else implsIn t ds
  | _ :: ds => implsIn t ds

/-- The first module with the given name directly in a declaration list:
its visibility and its content. -/
def findModule (name : String) : List Decl → Option (String × List Decl)
  | [] => none
  | Decl.modDecl v n c :: ds => if n = name then some (v, c) else findModule name ds
  | _ :: ds => findModule name ds

/-- Content of the generated kind module of an output, looked up by the
kind's name. -/
def Output.kindModule (o : Output) (kind : String) : List Decl :=
  ((findModule (mkIdent ("tylift_kind_" ++ kind)) o.decls).map Prod.snd).getD []

/-- Content of the sealing submodule nested in the kind module. -/
def Output.sealedModule (o : Output) (kind : String) : List Decl :=
  ((findModule (mkIdent "sealed") (o.kindModule kind)).map Prod.snd).getD []

/-! ### Example inputs, taken from the spec's scenarios -/

/-- The `Mode` kind of the crate documentation: two nullary variants
(one given an explicit discriminant to exercise the frame property). -/
def exMode : ItemEnum :=
  { attrs := ["doc = mode kind"], vis := "pub", ident := "Mode",
    genericParams := [], whereClause := none,
    variants :=
      [ { attrs := ["doc = safe"], ident := "Safe", fields := Fields.unit,
          discriminant := none },
        { attrs := [], ident := "Fast", fields := Fields.unit,
          discriminant := some 1 } ] }

/-- The `Nat` kind scenario: `Zero` and `Succ(Nat)`. -/
def exNat : ItemEnum :=
  { attrs := [], vis := "pub", ident := "Nat",
    genericParams := [], whereClause := none,
    variants :=
      [ { attrs := [], ident := "Zero", fields := Fields.unit,
          discriminant := none },
        { attrs := [], ident := "Succ", fields := Fields.unnamed [⟨[], "Nat"⟩],
          discriminant := none } ] }

/-! ### Characterisation of the validation loop -/

theorem processVariant_valid (se : Bool) (e : String) (v : Variant)
    (h : v.isValid e) : processVariant se e v = Except.ok ([], some v.lift) := by
  unfold Variant.isValid at h
  simp only [Bool.and_eq_true, bne_iff_ne, Bool.not_eq_true'] at h
  obtain ⟨h1, h2⟩ := h
  unfold processVariant
  rw [if_neg h1]
  cases hv : v.fields with
  | named fs => rw [hv] at h2; simp [Fields.isNamed] at h2
  | unnamed fs =>
      simp [Variant.lift, Variant.liftedFieldNames, Variant.liftedFieldTypes, hv]
  | unit =>
      simp [Variant.lift, Variant.liftedFieldNames, Variant.liftedFieldTypes, hv]

theorem processVariant_true (e : String) (v : Variant) :
    processVariant true e v = Except.ok (variantDiag e v, variantPush e v) := by
  by_cases h : v.ident = e <;> cases hv : v.fields <;>
    simp [processVariant, variantDiag, variantPush, Variant.lift,
      Variant.liftedFieldNames, Variant.liftedFieldTypes, h, hv]

theorem processVariant_false_ok (e : String) (v : Variant)
    (q : List String × Option LiftedVariant)
    (h : processVariant false e v = Except.ok q) : v.isValid e := by
  unfold processVariant at h
  by_cases h1 : v.ident = e
  · rw [if_pos h1] at h; exact absurd h (by simp)
  · rw [if_neg h1] at h
    cases hv : v.fields with
    | named fs => rw [hv] at h; exact absurd h (by simp)
    | unnamed fs => simp [Variant.isValid, Fields.isNamed, h1, hv]
    | unit => simp [Variant.isValid, Fields.isNamed, h1, hv]

theorem validateVariants_valid (se : Bool) (e : String) :
    ∀ vs : List Variant, (∀ v ∈ vs, v.isValid e) →
      validateVariants se e vs = Except.ok ([], vs.map Variant.lift)
  | [], _ => rfl
  | v :: vs, h => by
    have hv := processVariant_valid se e v (h v (List.mem_cons_self v vs))
    have ih := validateVariants_valid se e vs (fun w hw => h w (List.mem_cons_of_mem v hw))
    simp [validateVariants, hv, ih]

theorem validateVariants_true (e : String) :
    ∀ vs : List Variant,
      validateVariants true e vs =
        Except.ok ((vs.map (variantDiag e)).flatten, vs.filterMap (variantPush e))
  | [] => rfl
  | v :: vs => by
    have ih := validateVariants_true e vs
    cases h : variantPush e v <;>
      simp [validateVariants, processVariant_true, ih, h, List.filterMap_cons]

theorem validateVariants_false_ok (e : String) :
    ∀ (vs : List Variant) (p : List String × List LiftedVariant),
      validateVariants false e vs = Except.ok p → ∀ v ∈ vs, v.isValid e
  | [], _, _, v, hv => absurd hv (List.not_mem_nil v)
  | v :: vs, p, h, w, hw => by
    unfold validateVariants at h
    cases hpv : processVariant false e v with
    | error q => rw [hpv] at h; exact absurd h (by simp)
    | ok q =>
      rw [hpv] at h
      cases hrec : validateVariants false e vs with
      | error r => rw [hrec] at h; exact absurd h (by simp)
      | ok r =>
        rcases List.mem_cons.mp hw with hwv | hwvs
        · exact hwv ▸ processVariant_false_ok e v q hpv
        · exact validateVariants_false_ok e vs r hrec w hwvs

/-! ### Characterisation of the emitted stream -/

theorem mkIdent_sealed : mkIdent "sealed" = "__sealed" := rfl

theorem mkIdent_Sealed : mkIdent "Sealed" = "__Sealed" := rfl

theorem mkIdent_Pseudo : mkIdent "Pseudo" = "__Pseudo" := rfl

theorem emit_decls (item : ItemEnum) (lvs : List LiftedVariant) (ds : List String) :
    (emit item lvs ds).decls =
      [ Decl.useItems item.vis (mkIdent ("tylift_kind_" ++ item.ident))
          (item.ident :: lvs.map (fun lv => lv.ident)),
        Decl.modDecl "" (mkIdent ("tylift_kind_" ++ item.ident))
          (([ Decl.useGlob,
              Decl.traitDecl item.attrs "pub" item.ident
                (some ("__sealed", "__Sealed")) item.whereClause ]
            ++ (lvs.map (liftedKindDecls item.ident)).flatten
            ++ [ Decl.enumDecl ["doc(hidden)"] "pub" "__Pseudo" [],
                 Decl.implTrait [] item.ident "__Pseudo" [] ])
           ++ [ Decl.modDecl "" "__sealed"
                  ([ Decl.useGlob,
                     Decl.traitDecl [] "pub" "__Sealed" none none ]
                   ++ lvs.map (sealedImplDecl "__Sealed")
                   ++ [ Decl.implTrait [] "__Sealed" "__Pseudo" [] ]) ]) ] := rfl

theorem emit_diagnostics (item : ItemEnum) (lvs : List LiftedVariant)
    (ds : List String) : (emit item lvs ds).diagnostics = ds := rfl

theorem kindModule_emit (item : ItemEnum) (lvs : List LiftedVariant)
    (ds : List String) :
    (emit item lvs ds).kindModule item.ident =
      ([ Decl.useGlob,
         Decl.traitDecl item.attrs "pub" item.ident
           (some ("__sealed", "__Sealed")) item.whereClause ]
       ++ (lvs.map (liftedKindDecls item.ident)).flatten
       ++ [ Decl.enumDecl ["doc(hidden)"] "pub" "__Pseudo" [],
            Decl.implTrait [] item.ident "__Pseudo" [] ])
      ++ [ Decl.modDecl "" "__sealed"
             ([ Decl.useGlob,
                Decl.traitDecl [] "pub" "__Sealed" none none ]
              ++ lvs.map (sealedImplDecl "__Sealed")
              ++ [ Decl.implTrait [] "__Sealed" "__Pseudo" [] ]) ] := by
  simp [Output.kindModule, emit_decls, findModule, mkIdent_sealed, mkIdent_Sealed,
    mkIdent_Pseudo]

theorem findModule_append_of_none (n : String) :
    ∀ a b : List Decl, findModule n a = none →
      findModule n (a ++ b) = findModule n b
  | [], _, _ => rfl
  | d :: ds, b, h => by
    cases d <;> simp only [findModule, List.cons_append] at h ⊢ <;>
      first
      | exact findModule_append_of_none n ds b h
      | (split at h
         · exact absurd h (by simp)
         · rw [if_neg (by assumption)]
           exact findModule_append_of_none n ds b h)

theorem findModule_lifted_none (n k : String) :
    ∀ lvs : List LiftedVariant,
      findModule n ((lvs.map (liftedKindDecls k)).flatten) = none
  | [] => rfl
  | lv :: lvs => by
    simpa [liftedKindDecls, findModule] using findModule_lifted_none n k lvs

theorem sealedModule_emit (item : ItemEnum) (lvs : List LiftedVariant)
    (ds : List String) :
    (emit item lvs ds).sealedModule item.ident =
      [ Decl.useGlob,
        Decl.traitDecl [] "pub" "__Sealed" none none ]
      ++ lvs.map (sealedImplDecl "__Sealed")
      ++ [ Decl.implTrait [] "__Sealed" "__Pseudo" [] ] := by
  unfold Output.sealedModule
  rw [kindModule_emit]
  rw [findModule_append_of_none]
  · simp [findModule, mkIdent_sealed]
  · rw [findModule_append_of_none]
    · simp [findModule]
    · rw [findModule_append_of_none]
      · exact findModule_lifted_none _ _ lvs
      · simp [findModule]

/-! ### Scanning the per-variant blocks -/

theorem structNames_append :
    ∀ a b : List Decl, structNames (a ++ b) = structNames a ++ structNames b
  | [], _ => rfl
  | d :: ds, b => by
    cases d <;> simp [structNames, structNames_append ds b]

theorem traitNames_append :
    ∀ a b : List Decl, traitNames (a ++ b) = traitNames a ++ traitNames b
  | [], _ => rfl
  | d :: ds, b => by
    cases d <;> simp [traitNames, traitNames_append ds b]

theorem enumNames_append :
    ∀ a b : List Decl, enumNames (a ++ b) = enumNames a ++ enumNames b
  | [], _ => rfl
  | d :: ds, b => by
    cases d <;> simp [enumNames, enumNames_append ds b]

theorem implsIn_append (t : String) :
    ∀ a b : List Decl, implsIn t (a ++ b) = implsIn t a ++ implsIn t b
  | [], _ => rfl
  | d :: ds, b => by
    cases d <;> simp only [implsIn, List.cons_append] <;>
      first
      | exact implsIn_append t ds b
      | (split <;> simp [implsIn_append t ds b])

theorem structNames_lifted (k : String) :
    ∀ lvs : List LiftedVariant,
      structNames ((lvs.map (liftedKindDecls k)).flatten) =
        lvs.map (fun lv => lv.ident)
  | [] => rfl
  | lv :: lvs => by
    simp [liftedKindDecls, structNames, structNames_lifted k lvs]

theorem traitNames_lifted (k : String) :
    ∀ lvs : List LiftedVariant,
      traitNames ((lvs.map (liftedKindDecls k)).flatten) = []
  | [] => rfl
  | lv :: lvs => by
    simp [liftedKindDecls, traitNames, traitNames_lifted k lvs]

theorem enumNames_lifted (k : String) :
    ∀ lvs : List LiftedVariant,
      enumNames ((lvs.map (liftedKindDecls k)).flatten) = []
  | [] => rfl
  | lv :: lvs => by
    simp [liftedKindDecls, enumNames, enumNames_lifted k lvs]

theorem implsIn_lifted (k : String) :
    ∀ lvs : List LiftedVariant,
      implsIn k ((lvs.map (liftedKindDecls k)).flatten) =
        lvs.map (fun lv => lv.ident)
  | [] => rfl
  | lv :: lvs => by
    simp [liftedKindDecls, implsIn, implsIn_lifted k lvs]

/-! ### Top-level behaviour of `tylift` -/

theorem tylift_nonempty_attr (se : Bool) (attr : List String) (item : ItemEnum)
    (h : attr ≠ []) :
    tylift se attr item = Except.error "assertion failed: attr.is_empty()" := by
  cases attr with
  | nil => exact absurd rfl h
  | cons a as => simp [tylift, List.isEmpty]

theorem tylift_nil_attr (se : Bool) (item : ItemEnum) :
    tylift se [] item =
      match
        (if item.genericParams.isEmpty then Except.ok []
         else if se then
           Except.ok ["type parameters cannot be lifted to the kind-level"]
         else
           Except.error "type parameters cannot be lifted to the kind-level" :
         Except String (List String))
      with
      | Except.error e => Except.error e
      | Except.ok genericsDiags =>
        match validateVariants se item.ident item.variants with
        | Except.error e => Except.error e
        | Except.ok (variantDiags, variants) =>
          Except.ok (emit item variants (genericsDiags ++ variantDiags)) := rfl

theorem tylift_all_valid (se : Bool) (item : ItemEnum)
    (hg : item.genericParams = [])
    (hv : ∀ v ∈ item.variants, v.isValid item.ident) :
    tylift se [] item =
      Except.ok (emit item (item.variants.map Variant.lift) []) := by
  rw [tylift_nil_attr, validateVariants_valid se item.ident item.variants hv]
  rw [if_pos (by simp [hg])]
  exact rfl

theorem tylift_true (item : ItemEnum) :
    tylift true [] item =
      Except.ok (emit item (item.variants.filterMap (variantPush item.ident))
        ((if item.genericParams.isEmpty then []
          else ["type parameters cannot be lifted to the kind-level"])
         ++ (item.variants.map (variantDiag item.ident)).flatten)) := by
  rw [tylift_nil_attr, validateVariants_true]
  cases hg : item.genericParams.isEmpty <;> simp [hg]

theorem tylift_false_ok (item : ItemEnum) (out : Output)
    (h : tylift false [] item = Except.ok out) :
    item.genericParams = [] ∧ ∀ v ∈ item.variants, v.isValid item.ident := by
  rw [tylift_nil_attr] at h
  by_cases hg : item.genericParams = []
  · rw [if_pos (by simp [hg])] at h
    refine ⟨hg, ?_⟩
    cases hvv : validateVariants false item.ident item.variants with
    | error e => rw [hvv] at h; exact absurd h (by simp)
    | ok p => exact validateVariants_false_ok item.ident item.variants p hvv
  · rw [if_neg (by simp [hg]), if_neg (by simp)] at h
    exact absurd h (by simp)

theorem variantPush_of_valid (e : String) (v : Variant) (h : v.isValid e) :
    variantPush e v = some v.lift := by
  unfold Variant.isValid at h
  simp only [Bool.and_eq_true, bne_iff_ne] at h
  simp [variantPush, h.1]

theorem filterMap_variantPush_of_valid (e : String) :
    ∀ vs : List Variant, (∀ v ∈ vs, v.isValid e) →
      vs.filterMap (variantPush e) = vs.map Variant.lift
  | [], _ => rfl
  | v :: vs, h => by
    rw [List.filterMap_cons,
      variantPush_of_valid e v (h v (List.mem_cons_self v vs)),
      filterMap_variantPush_of_valid e vs
        (fun w hw => h w (List.mem_cons_of_mem v hw))]
    rfl

theorem variantPush_ident (e : String) (v : Variant) (lv : LiftedVariant)
    (h : variantPush e v = some lv) : lv.ident = v.ident ∧ v.ident ≠ e := by
  unfold variantPush at h
  by_cases he : v.ident = e
  · rw [if_pos he] at h; exact absurd h (by simp)
  · rw [if_neg he] at h
    refine ⟨?_, he⟩
    cases h
    rfl

/-- Every successful run with an empty argument list produces exactly the
stream `emit` assembles from the entries `variantPush` keeps, whatever the
feature configuration. -/
theorem tylift_ok_shape (se : Bool) (item : ItemEnum) (out : Output)
    (h : tylift se [] item = Except.ok out) :
    out = emit item (item.variants.filterMap (variantPush item.ident))
            out.diagnostics := by
  cases se with
  | true =>
    rw [tylift_true item] at h
    cases h
    rfl
  | false =>
    obtain ⟨hg, hv⟩ := tylift_false_ok item out h
    rw [tylift_all_valid false item hg hv] at h
    cases h
    rw [filterMap_variantPush_of_valid item.ident item.variants hv]
    rfl

/-- Lookup of the generic-parameter list of the first struct with a given
name in a declaration list. -/
def structParams (n : String) : List Decl → Option (List (String × String))
  | [] => none
  | Decl.structDecl _ _ m p _ :: ds => if m = n then some p else structParams n ds
  | _ :: ds => structParams n ds

/-! ### Scrubbing field attributes and discriminants (frame property) -/

/-- A field with its attributes removed. -/
def Field.scrub (f : Field) : Field := { f with attrs := [] }

/-- Fields with all field-level attributes removed. -/
def Fields.scrub : Fields → Fields
  | Fields.named fs => Fields.named (fs.map (fun p => (p.1, p.2.scrub)))
  | Fields.unnamed fs => Fields.unnamed (fs.map Field.scrub)
  | Fields.unit => Fields.unit

/-- A variant with field-level attributes and its explicit discriminant
removed. -/
def Variant.scrub (v : Variant) : Variant :=
  { v with fields := v.fields.scrub, discriminant := none }

/-- An enum with all field-level attributes and discriminants removed. -/
def ItemEnum.scrubFields (item : ItemEnum) : ItemEnum :=
  { item with variants := item.variants.map Variant.scrub }

theorem processVariant_scrub (se : Bool) (e : String) (v : Variant) :
    processVariant se e v.scrub = processVariant se e v := by
  cases hv : v.fields <;>
    simp [processVariant, Variant.scrub, Fields.scrub, Field.scrub, hv,
      Variant.lift, Variant.liftedFieldNames, Variant.liftedFieldTypes,
      Function.comp_def]

theorem validateVariants_scrub (se : Bool) (e : String) :
    ∀ vs : List Variant,
      validateVariants se e (vs.map Variant.scrub) = validateVariants se e vs
  | [] => rfl
  | v :: vs => by
    simp only [List.map_cons, validateVariants, processVariant_scrub,
      validateVariants_scrub se e vs]

theorem tylift_scrub (se : Bool) (attr : List String) (item : ItemEnum) :
    tylift se attr item.scrubFields = tylift se attr item := by
  unfold tylift
  have hv : validateVariants se item.scrubFields.ident item.scrubFields.variants
      = validateVariants se item.ident item.variants :=
    validateVariants_scrub se item.ident item.variants
  rw [hv]
  exact rfl

/-! ### Scans of the emitted kind module -/

theorem findSealed_emit (item : ItemEnum) (lvs : List LiftedVariant)
    (ds : List String) :
    findModule "__sealed" ((emit item lvs ds).kindModule item.ident) =
      some ("", [ Decl.useGlob, Decl.traitDecl [] "pub" "__Sealed" none none ]
        ++ lvs.map (sealedImplDecl "__Sealed")
        ++ [ Decl.implTrait [] "__Sealed" "__Pseudo" [] ]) := by
  rw [kindModule_emit]
  rw [findModule_append_of_none]
  · simp [findModule]
  · rw [findModule_append_of_none]
    · simp [findModule]
    · rw [findModule_append_of_none]
      · exact findModule_lifted_none _ _ lvs
      · simp [findModule]

theorem structNames_kindModule (item : ItemEnum) (lvs : List LiftedVariant)
    (ds : List String) :
    structNames ((emit item lvs ds).kindModule item.ident) =
      lvs.map (fun lv => lv.ident) := by
  rw [kindModule_emit]
  simp [structNames_append, structNames, structNames_lifted]

theorem traitNames_kindModule (item : ItemEnum) (lvs : List LiftedVariant)
    (ds : List String) :
    traitNames ((emit item lvs ds).kindModule item.ident) = [item.ident] := by
  rw [kindModule_emit]
  simp [traitNames_append, traitNames, traitNames_lifted]

theorem enumNames_kindModule (item : ItemEnum) (lvs : List LiftedVariant)
    (ds : List String) :
    enumNames ((emit item lvs ds).kindModule item.ident) = ["__Pseudo"] := by
  rw [kindModule_emit]
  simp [enumNames_append, enumNames, enumNames_lifted]

theorem implsIn_kindModule (item : ItemEnum) (lvs : List LiftedVariant)
    (ds : List String) :
    implsIn item.ident ((emit item lvs ds).kindModule item.ident) =
      lvs.map (fun lv => lv.ident) ++ ["__Pseudo"] := by
  rw [kindModule_emit]
  simp [implsIn_append, implsIn, implsIn_lifted]

theorem trait_mem_kindModule (item : ItemEnum) (lvs : List LiftedVariant)
    (ds : List String) :
    Decl.traitDecl item.attrs "pub" item.ident (some ("__sealed", "__Sealed"))
        item.whereClause ∈ (emit item lvs ds).kindModule item.ident := by
  rw [kindModule_emit]
  simp

theorem lifted_mem_kindModule (item : ItemEnum) (lvs : List LiftedVariant)
    (ds : List String) (lv : LiftedVariant) (hlv : lv ∈ lvs) :
    Decl.structDecl lv.attrs "pub" lv.ident (lv.fieldNames.zip lv.fieldTypes)
        lv.fieldNames ∈ (emit item lvs ds).kindModule item.ident ∧
    Decl.implTrait (lv.fieldNames.zip lv.fieldTypes) item.ident lv.ident
        lv.fieldNames ∈ (emit item lvs ds).kindModule item.ident := by
  rw [kindModule_emit]
  constructor <;>
  · refine List.mem_append_left _ (List.mem_append_left _
      (List.mem_append_right _ ?_))
    rw [List.mem_flatten]
    exact ⟨liftedKindDecls item.ident lv, List.mem_map_of_mem _ hlv,
      by simp [liftedKindDecls]⟩

/-! ### The claims -/

/-- C1: after a successful expansion of a declaration whose variants are
all valid, the `impl`s of the kind trait emitted at the top level of the
kind module are exactly one per variant, in order, plus the hidden
placeholder `__Pseudo`; the kind trait declared there has the sealing
trait `__sealed::__Sealed` as its supertrait, and the sealing module is
emitted without `pub`, so the sealing trait cannot be named outside the
generated module and no outside type can satisfy the kind trait. -/
theorem claim1 (se : Bool) (item : ItemEnum) (out : Output)
    (hv : ∀ v ∈ item.variants, v.isValid item.ident)
    (h : tylift se [] item = Except.ok out) :
    implsIn item.ident (out.kindModule item.ident)
        = item.variants.map (fun v => v.ident) ++ ["__Pseudo"] ∧
    Decl.traitDecl item.attrs "pub" item.ident (some ("__sealed", "__Sealed"))
        item.whereClause ∈ out.kindModule item.ident ∧
    (findModule "__sealed" (out.kindModule item.ident)).map Prod.fst
        = some "" := by
  have hshape := tylift_ok_shape se item out h
  rw [filterMap_variantPush_of_valid item.ident item.variants hv] at hshape
  refine ⟨?_, ?_, ?_⟩
  · rw [hshape, implsIn_kindModule, List.map_map]
    exact rfl
  · rw [hshape]
    exact trait_mem_kindModule item _ _
  · rw [hshape, findSealed_emit]
    rfl

/-- C1 witness: the `Nat` kind with variants `Zero` and `Succ(Nat)`:
the types implementing `Nat` are exactly `Zero`, `Succ` and `__Pseudo`. -/
theorem claim1_witness :
    implsIn "Nat"
        ((emit exNat (exNat.variants.map Variant.lift) []).kindModule "Nat")
      = ["Zero", "Succ", "__Pseudo"] :=
  (claim1 false exNat (emit exNat (exNat.variants.map Variant.lift) [])
    (by decide) (tylift_all_valid false exNat rfl (by decide))).1.trans
    (by decide)

/-- C2: for a declaration with no structural errors and all variants
valid, the kind module holds exactly one trait declaration, exactly one
nominal type declaration per variant in input order, exactly one hidden
placeholder enum, and every one of those types implements the kind
trait. -/
theorem claim2 (se : Bool) (item : ItemEnum) (out : Output)
    (hg : item.genericParams = [])
    (hv : ∀ v ∈ item.variants, v.isValid item.ident)
    (h : tylift se [] item = Except.ok out) :
    traitNames (out.kindModule item.ident) = [item.ident] ∧
    structNames (out.kindModule item.ident)
        = item.variants.map (fun v => v.ident) ∧
    enumNames (out.kindModule item.ident) = ["__Pseudo"] ∧
    implsIn item.ident (out.kindModule item.ident)
        = item.variants.map (fun v => v.ident) ++ ["__Pseudo"] := by
  have hshape := tylift_ok_shape se item out h
  rw [filterMap_variantPush_of_valid item.ident item.variants hv] at hshape
  refine ⟨?_, ?_, ?_, ?_⟩
  · rw [hshape, traitNames_kindModule]
  · rw [hshape, structNames_kindModule, List.map_map]
    exact rfl
  · rw [hshape, enumNames_kindModule]
  · rw [hshape, implsIn_kindModule, List.map_map]
    exact rfl

/-- C2 witness: the `Mode` kind with variants `Safe` and `Fast` yields
one trait, the two structs in input order, one placeholder, and impls for
all three. -/
theorem claim2_witness :
    traitNames
        ((emit exMode (exMode.variants.map Variant.lift) []).kindModule "Mode")
      = ["Mode"] ∧
    structNames
        ((emit exMode (exMode.variants.map Variant.lift) []).kindModule "Mode")
      = ["Safe", "Fast"] := by
  have h := claim2 false exMode (emit exMode (exMode.variants.map Variant.lift) [])
    rfl (by decide) (tylift_all_valid false exMode rfl (by decide))
  exact ⟨h.1, h.2.1.trans (by decide)⟩

/-- C10: every successful expansion emits, inside the kind module, the
hidden placeholder `__Pseudo` as an uninhabited enum marked `doc(hidden)`
implementing the kind trait, and, inside the sealing module, an impl of
the sealing trait for `__Pseudo` — unconditionally, whatever the feature
configuration and input. -/
theorem claim10 (se : Bool) (attr : List String) (item : ItemEnum)
    (out : Output) (h : tylift se attr item = Except.ok out) :
    Decl.enumDecl ["doc(hidden)"] "pub" "__Pseudo" [] ∈ out.kindModule item.ident ∧
    Decl.implTrait [] item.ident "__Pseudo" [] ∈ out.kindModule item.ident ∧
    Decl.implTrait [] "__Sealed" "__Pseudo" [] ∈ out.sealedModule item.ident := by
  cases attr with
  | cons a as =>
    rw [tylift_nonempty_attr se (a :: as) item (by simp)] at h
    exact absurd h (by simp)
  | nil =>
    have hshape := tylift_ok_shape se item out h
    rw [hshape]
    refine ⟨?_, ?_, ?_⟩
    · rw [kindModule_emit]; simp
    · rw [kindModule_emit]; simp
    · rw [sealedModule_emit]; simp

/-- C10 witness: the placeholder items for the `Mode` kind. -/
theorem claim10_witness :
    Decl.enumDecl ["doc(hidden)"] "pub" "__Pseudo" []
      ∈ (emit exMode (exMode.variants.map Variant.lift) []).kindModule "Mode" :=
  (claim10 true [] exMode (emit exMode (exMode.variants.map Variant.lift) [])
    (tylift_all_valid true exMode rfl (by decide))).1

/-- A declaration whose single variant uses named fields. -/
def exNamed : ItemEnum :=
  { attrs := [], vis := "", ident := "K",
    genericParams := [], whereClause := none,
    variants :=
      [ { attrs := [], ident := "V",
          fields := Fields.named [("x", ⟨[], "T"⟩)], discriminant := none } ] }

/-- A declaration whose single variant is named like the enum itself. -/
def exClash : ItemEnum :=
  { attrs := [], vis := "pub", ident := "Mode",
    genericParams := [], whereClause := none,
    variants :=
      [ { attrs := [], ident := "Mode", fields := Fields.unit,
          discriminant := none } ] }

/-- C3 counterexample: the argument token `mod`, which the claim says
selects explicit-module mode, instead trips `assert!(attr.is_empty())`:
the expansion fails and nothing is emitted.  The macro has no
explicit-module mode at all. -/
theorem claim3_counterexample :
    tylift false ["mod"] exMode
      = Except.error "assertion failed: attr.is_empty()" := rfl

/-- C3 (amended): the attribute accepts exactly one argument shape — zero
tokens (default scope mode); any nonempty argument token sequence is a
fatal error with no declarations emitted, while with zero tokens the
expansion proceeds and succeeds on any well-formed declaration. -/
theorem claim3 (se : Bool) (attr : List String) (item : ItemEnum) :
    (attr ≠ [] →
      tylift se attr item = Except.error "assertion failed: attr.is_empty()") ∧
    (item.genericParams = [] → (∀ v ∈ item.variants, v.isValid item.ident) →
      tylift se [] item
        = Except.ok (emit item (item.variants.map Variant.lift) [])) :=
  ⟨tylift_nonempty_attr se attr item, tylift_all_valid se item⟩

/-- C3 witness: a nonempty argument list fails and the empty one
succeeds, on the `Nat` kind. -/
theorem claim3_witness :
    tylift true ["mod"] exNat
      = Except.error "assertion failed: attr.is_empty()" ∧
    tylift true [] exNat
      = Except.ok (emit exNat (exNat.variants.map Variant.lift) []) :=
  ⟨(claim3 true ["mod"] exNat).1 (by decide),
   (claim3 true [] exNat).2 rfl (by decide)⟩

/-- C4 counterexample: with the `span_errors` feature active, a
declaration carrying a generic parameter still expands — the diagnostic
is reported, but validation does not stop and declarations are emitted
(the claim says zero declarations are emitted). -/
theorem claim4_counterexample :
    (tylift true [] { exMode with genericParams := ["T"] }).toOption.map
        (fun o => (o.decls.isEmpty, o.diagnostics))
      = some (false, ["type parameters cannot be lifted to the kind-level"]) := rfl

/-- C4 (amended): on a declaration with generic parameters, with the
`span_errors` feature disabled the expansion panics with "type parameters
cannot be lifted to the kind-level" and emits nothing; with the feature
enabled the same diagnostic is reported but the expansion continues and
emits its declarations. -/
theorem claim4 (item : ItemEnum) (hg : item.genericParams ≠ []) :
    tylift false [] item
        = Except.error "type parameters cannot be lifted to the kind-level" ∧
    ∀ out, tylift true [] item = Except.ok out →
      "type parameters cannot be lifted to the kind-level" ∈ out.diagnostics ∧
      out.decls ≠ [] := by
  have hgb : item.genericParams.isEmpty = false := by
    cases hgp : item.genericParams with
    | nil => exact absurd hgp hg
    | cons a as => rfl
  constructor
  · rw [tylift_nil_attr, if_neg (by rw [hgb]; simp)]
    exact rfl
  · intro out h
    rw [tylift_true item] at h
    injection h with h
    constructor
    · rw [← h, emit_diagnostics, if_neg (by rw [hgb]; simp)]
      exact List.mem_append_left _ (List.mem_cons_self _ _)
    · rw [← h, emit_decls]
      simp

/-- C4 witness: the `Nat` kind given one type parameter. -/
theorem claim4_witness :
    tylift false [] { exNat with genericParams := ["T"] }
      = Except.error "type parameters cannot be lifted to the kind-level" ∧
    "type parameters cannot be lifted to the kind-level"
      ∈ (emit { exNat with genericParams := ["T"] }
          (exNat.variants.map Variant.lift)
          ["type parameters cannot be lifted to the kind-level"]).diagnostics :=
  ⟨(claim4 { exNat with genericParams := ["T"] } (by decide)).1,
   ((claim4 { exNat with genericParams := ["T"] } (by decide)).2 _ rfl).1⟩

/-- C5: the claim matches the crate's documentation and the
`span_errors`-disabled path, but the code is wrong in the enhanced
configuration: the `Fields::Named` arm gates its report-and-skip branch
on the misspelt feature name `span_erros` (lib.rs line 144), so with
`span_errors` enabled a named-fields variant is neither reported nor
excluded — it is silently lifted as a parameterless type with no
diagnostic.  Without the feature the rule panics as documented. -/
theorem claim5_bug :
    (tylift true [] exNamed).toOption.map
        (fun o => (o.diagnostics, structNames (o.kindModule "K"),
          structParams "V" (o.kindModule "K")))
      = some ([], ["V"], some []) ∧
    tylift false [] exNamed
      = Except.error "variant must not have named fields" :=
  ⟨rfl, rfl⟩

/-- C6: a variant named like its enum is reported with "name of variant
matches name of enum" whenever the expansion completes under enhanced
diagnostics, is never among the emitted structs, and a declaration
consisting solely of such variants yields the trait alone with no lifted
type. -/
theorem claim6 (se : Bool) (item : ItemEnum) (out : Output)
    (h : tylift se [] item = Except.ok out) :
    (se = true → ∀ v ∈ item.variants, v.ident = item.ident →
        "name of variant matches name of enum" ∈ out.diagnostics) ∧
    item.ident ∉ structNames (out.kindModule item.ident) ∧
    ((∀ v ∈ item.variants, v.ident = item.ident) →
        structNames (out.kindModule item.ident) = [] ∧
        traitNames (out.kindModule item.ident) = [item.ident]) := by
  have hshape := tylift_ok_shape se item out h
  refine ⟨?_, ?_, ?_⟩
  · rintro rfl v hv hvid
    rw [tylift_true item] at h
    injection h with h
    rw [← h, emit_diagnostics]
    refine List.mem_append_right _ ?_
    rw [List.mem_flatten]
    exact ⟨variantDiag item.ident v, List.mem_map_of_mem _ hv,
      by simp [variantDiag, hvid]⟩
  · rw [hshape, structNames_kindModule]
    intro hmem
    obtain ⟨lv, hlv, hlvid⟩ := List.mem_map.mp hmem
    obtain ⟨v, hv, hpush⟩ := List.mem_filterMap.mp hlv
    obtain ⟨hid, hne⟩ := variantPush_ident item.ident v lv hpush
    exact hne (hid ▸ hlvid)
  · intro hall
    have hnil : item.variants.filterMap (variantPush item.ident) = [] := by
      rw [List.filterMap_eq_nil_iff]
      intro v hv
      simp [variantPush, hall v hv]
    rw [hnil] at hshape
    rw [hshape]
    exact ⟨by rw [structNames_kindModule]; rfl,
      by rw [traitNames_kindModule]⟩

/-- C6 witness: a `Mode` kind whose only variant is also named `Mode`:
the diagnostic is reported and the output holds the trait and no
struct. -/
theorem claim6_witness :
    "name of variant matches name of enum"
      ∈ (emit exClash [] ["name of variant matches name of enum"]).diagnostics ∧
    structNames ((emit exClash []
        ["name of variant matches name of enum"]).kindModule "Mode") = [] ∧
    traitNames ((emit exClash []
        ["name of variant matches name of enum"]).kindModule "Mode") = ["Mode"] := by
  have hc := claim6 true exClash
    (emit exClash [] ["name of variant matches name of enum"]) rfl
  exact ⟨hc.1 rfl ⟨[], "Mode", Fields.unit, none⟩ (by decide) rfl,
    (hc.2.2 (by decide)).1, (hc.2.2 (by decide)).2⟩

/-- C7 counterexample: in the Nat/Succ scenario the synthesized generic
parameter of `Succ` is named `__T0` (the `identifier!` macro prefixes two
underscores), not `T0` as the claim's example states. -/
theorem claim7_counterexample :
    (tylift true [] exNat).toOption.map
        (fun o => structParams "Succ" (o.kindModule "Nat"))
      = some (some [("__T0", "Nat")]) ∧
    some (some [("__T0", "Nat")]) ≠ some (some [("T0", "Nat")]) :=
  ⟨rfl, by decide⟩

/-- C7 (amended): a nullary valid variant lifts to a struct with zero
generic parameters, and a valid variant with `k` unnamed fields of kinds
`K0..K(k-1)` lifts to a struct with `k` synthesized parameters named
`__T0..__T(k-1)` (not `T0..`), the i-th bounded by `Ki`, together with an
impl of the kind trait for it. -/
theorem claim7 (se : Bool) (item : ItemEnum) (out : Output) (v : Variant)
    (hv : v ∈ item.variants) (hval : v.isValid item.ident)
    (h : tylift se [] item = Except.ok out) :
    Decl.structDecl v.attrs "pub" v.ident
        (v.liftedFieldNames.zip v.liftedFieldTypes) v.liftedFieldNames
      ∈ out.kindModule item.ident ∧
    Decl.implTrait (v.liftedFieldNames.zip v.liftedFieldTypes) item.ident
        v.ident v.liftedFieldNames ∈ out.kindModule item.ident ∧
    (v.fields = Fields.unit → v.liftedFieldNames = []) ∧
    (∀ fs, v.fields = Fields.unnamed fs →
      v.liftedFieldNames = (List.range fs.length).map
          (fun i => mkIdent ("T" ++ toString i)) ∧
      v.liftedFieldTypes = fs.map (fun f => f.ty)) := by
  have hshape := tylift_ok_shape se item out h
  have hpush : v.lift ∈ item.variants.filterMap (variantPush item.ident) :=
    List.mem_filterMap.mpr ⟨v, hv, variantPush_of_valid _ v hval⟩
  have hmem := lifted_mem_kindModule item _ out.diagnostics v.lift hpush
  rw [hshape]
  refine ⟨hmem.1, hmem.2, ?_, ?_⟩
  · intro hu
    simp [Variant.liftedFieldNames, Variant.liftedFieldTypes, hu]
  · intro fs hfs
    constructor <;>
      simp [Variant.liftedFieldNames, Variant.liftedFieldTypes, hfs]

/-- C7 witness: in the `Nat` kind, `Zero` lifts parameterless and `Succ`
lifts with a single parameter `__T0` bounded by `Nat`. -/
theorem claim7_witness :
    Decl.structDecl [] "pub" "Succ" [("__T0", "Nat")] ["__T0"]
      ∈ (emit exNat (exNat.variants.map Variant.lift) []).kindModule "Nat" ∧
    Decl.structDecl [] "pub" "Zero" [] []
      ∈ (emit exNat (exNat.variants.map Variant.lift) []).kindModule "Nat" := by
  have hs := claim7 false exNat (emit exNat (exNat.variants.map Variant.lift) [])
    ⟨[], "Succ", Fields.unnamed [⟨[], "Nat"⟩], none⟩ (by decide) (by decide)
    (tylift_all_valid false exNat rfl (by decide))
  have hz := claim7 false exNat (emit exNat (exNat.variants.map Variant.lift) [])
    ⟨[], "Zero", Fields.unit, none⟩ (by decide) (by decide)
    (tylift_all_valid false exNat rfl (by decide))
  exact ⟨hs.1, hz.1⟩

/-- C8: on every successful run the whole output is one re-export plus
one private module named `__tylift_kind_<kind>`; the re-export carries the
declaration's own visibility and names exactly the kind trait and every
lifted type; the sealing module inside is private and it is where (and
only where) the sealing trait is declared. -/
theorem claim8 (se : Bool) (item : ItemEnum) (out : Output)
    (h : tylift se [] item = Except.ok out) :
    out.decls =
      [ Decl.useItems item.vis (mkIdent ("tylift_kind_" ++ item.ident))
          (item.ident :: structNames (out.kindModule item.ident)),
        Decl.modDecl "" (mkIdent ("tylift_kind_" ++ item.ident))
          (out.kindModule item.ident) ] ∧
    (findModule "__sealed" (out.kindModule item.ident)).map Prod.fst
        = some "" ∧
    traitNames (out.sealedModule item.ident) = ["__Sealed"] := by
  have hshape := tylift_ok_shape se item out h
  refine ⟨?_, ?_, ?_⟩
  · conv_lhs => rw [hshape]
    rw [hshape, structNames_kindModule, kindModule_emit, emit_decls]
  · rw [hshape, findSealed_emit]
    rfl
  · rw [hshape, sealedModule_emit]
    induction (item.variants.filterMap (variantPush item.ident)) with
    | nil => rfl
    | cons lv lvs ih =>
      simpa [traitNames_append, traitNames, sealedImplDecl] using ih

/-- C8 witness: the `Mode` kind is wrapped in the private module
`__tylift_kind_Mode` and re-exported as `pub use
__tylift_kind_Mode::{Mode, Safe, Fast};`. -/
theorem claim8_witness :
    (emit exMode (exMode.variants.map Variant.lift) []).decls =
      [ Decl.useItems "pub" "__tylift_kind_Mode" ["Mode", "Safe", "Fast"],
        Decl.modDecl "" "__tylift_kind_Mode"
          ((emit exMode (exMode.variants.map Variant.lift) []).kindModule
            "Mode") ] :=
  (claim8 false exMode (emit exMode (exMode.variants.map Variant.lift) [])
    (tylift_all_valid false exMode rfl (by decide))).1

/-- C9: field-level attributes and explicit discriminants have no effect
on the expansion (scrubbing them from the input leaves `tylift`'s result
unchanged), while the enum's own attributes appear verbatim on the
generated trait and each valid variant's attributes appear verbatim on
its lifted struct. -/
theorem claim9 (se : Bool) (attr : List String) (item : ItemEnum) :
    tylift se attr item.scrubFields = tylift se attr item ∧
    ∀ out, tylift se [] item = Except.ok out →
      Decl.traitDecl item.attrs "pub" item.ident (some ("__sealed", "__Sealed"))
          item.whereClause ∈ out.kindModule item.ident ∧
      ∀ v ∈ item.variants, v.isValid item.ident →
        Decl.structDecl v.attrs "pub" v.ident
            (v.liftedFieldNames.zip v.liftedFieldTypes) v.liftedFieldNames
          ∈ out.kindModule item.ident := by
  refine ⟨tylift_scrub se attr item, ?_⟩
  intro out h
  have hshape := tylift_ok_shape se item out h
  rw [hshape]
  refine ⟨trait_mem_kindModule item _ _, ?_⟩
  intro v hv hval
  exact (lifted_mem_kindModule item _ _ v.lift
    (List.mem_filterMap.mpr ⟨v, hv, variantPush_of_valid _ v hval⟩)).1

/-- C9 witness: scrubbing `Fast`'s discriminant from `exMode` leaves the
result unchanged, and `exMode`'s doc attribute lands on the trait. -/
theorem claim9_witness :
    tylift true [] exMode.scrubFields = tylift true [] exMode ∧
    Decl.traitDecl ["doc = mode kind"] "pub" "Mode"
        (some ("__sealed", "__Sealed")) none
      ∈ (emit exMode (exMode.variants.map Variant.lift) []).kindModule
          "Mode" := by
  have hc := claim9 true [] exMode
  exact ⟨hc.1,
    (hc.2 (emit exMode (exMode.variants.map Variant.lift) [])
      (tylift_all_valid true exMode rfl (by decide))).1⟩

end Tylift
